import Mathlib

/-!
Verification of the GroundFinder color-analysis backend.

Shallow embedding of the Python sources under `backend/app/`:
`color_ops.py`, `analysis.py`, `mask_ops.py`, `ground.py`, `palette.py`,
`main.py` and `schemas.py`.  Real-valued pixel data is modelled with
exact rationals; 2-D arrays are lists of rows; numpy elementwise
operations become `List.map`; Python exceptions become `Except`.
-/

/-- numpy float mod with positive divisor: `x % y = x - y*floor(x/y)`. -/
def qmod (x y : ℚ) : ℚ := x - y * ⌊x / y⌋

/-- Model of `np.clip(x, lo, hi)`. -/
def qclip (x lo hi : ℚ) : ℚ := min (max x lo) hi

/-- Model of `np.round`: round half to even (banker's rounding), as numpy does. -/
def np_round (x : ℚ) : ℤ :=
  let f := ⌊x⌋
  let r := x - f
  if r < 1/2 then f
  else if 1/2 < r then f + 1
  else if f % 2 = 0 then f else f + 1

/-- Model of `analysis.ClusterInfo`: one k-means cluster record.  `index` is the
original (unranked) k-means cluster id; centers are Lab and LCh triples
`(L, a, b)` / `(L, C, H)`. -/
structure ClusterInfo where
  index : Nat
  center_lab : ℚ × ℚ × ℚ
  center_lch : ℚ × ℚ × ℚ
  pixel_count : Nat
deriving Repr, DecidableEq

/-- Model of `analysis.AnalysisResult`, restricted to the fields the mask and
ground operations read. -/
structure AnalysisResult where
  lab_array : List (List (ℚ × ℚ × ℚ))
  lch_array : List (List (ℚ × ℚ × ℚ))
  temperature_map : List (List Nat)
  clusters : List ClusterInfo
  labels : List (List Nat)
  downscale_ratio : ℚ
deriving Repr

/-! ## mask_ops.py -/

/-- Model of `mask_ops._mask_from_value`: scale clipped L to an 8-bit bin with
`np.round`, mask where the bin lies in `[lower_bin, upper_bin]`. -/
def _mask_from_value (l_channel : List (List ℚ)) (lower_bin upper_bin : ℤ) :
    List (List Bool) :=
  l_channel.map (fun row => row.map (fun L =>
    let scaled := qclip L 0 100
    let bin := qclip (np_round (scaled / 100 * 255) : ℚ) 0 255
    decide (lower_bin ≤ bin ∧ bin ≤ upper_bin)))

/-- Model of `mask_ops._mask_from_hue`: circular hue distance within tolerance. -/
def _mask_from_hue (h_channel : List (List ℚ)) (base_hue tolerance : ℚ) :
    List (List Bool) :=
  h_channel.map (fun row => row.map (fun H =>
    decide (|qmod (H - base_hue + 180) 360 - 180| ≤ tolerance)))

/-- Model of `mask_ops._mask_from_cluster`: raises `ValueError` when the rank
index is out of range, otherwise compares the label map against the
original cluster id stored at that rank. -/
def _mask_from_cluster (labels : List (List Nat)) (cluster_rank_index : ℤ)
    (ranked_clusters : List Nat) : Except String (List (List Bool)) :=
  if cluster_rank_index < 0 ∨ (ranked_clusters.length : ℤ) ≤ cluster_rank_index then
    .error "cluster_rank_index out of range"
  else
    let target := ranked_clusters.getD cluster_rank_index.toNat 0
    .ok (labels.map (fun row => row.map (fun l => decide (l = target))))

/-- Model of `mask_ops._mask_from_temperature`: warm/cool/neutral are encoded
0/1/2; unknown categories raise `ValueError`. -/
def _mask_from_temperature (temperature_map : List (List Nat)) (category : String) :
    Except String (List (List Bool)) :=
  let mapping : List (String × Nat) := [("warm", 0), ("cool", 1), ("neutral", 2)]
  match mapping.lookup category with
  | none => .error ("Unknown temperature category: " ++ category)
  | some v => .ok (temperature_map.map (fun row => row.map (fun t => decide (t = v))))

/-- Model of `mask_ops._mask_from_ground_lab`: Euclidean Lab distance within
tolerance.  The source compares `np.linalg.norm(diff) <= tolerance`;
for real `sqrt` that comparison is equivalent to
`0 ≤ tolerance ∧ dist² ≤ tolerance²`, which is how it is written here
to stay inside exact rational arithmetic. -/
def _mask_from_ground_lab (lab_array : List (List (ℚ × ℚ × ℚ)))
    (target_lab : ℚ × ℚ × ℚ) (tolerance : ℚ) : List (List Bool) :=
  lab_array.map (fun row => row.map (fun p =>
    let dsq := (p.1 - target_lab.1)^2 + (p.2.1 - target_lab.2.1)^2 +
      (p.2.2 - target_lab.2.2)^2
    decide (0 ≤ tolerance ∧ dsq ≤ tolerance^2)))

/-- Default of `generate_mask`'s `hue_tolerance` keyword (source: `10.0`). -/
def DEFAULT_HUE_TOLERANCE : ℚ := 10

/-- Default of `generate_mask`'s `ground_tolerance` keyword (source: `7.5`). -/
def DEFAULT_GROUND_TOLERANCE : ℚ := 15/2

/-- Model of `mask_ops.generate_mask`: dispatch over the five mask modes.
Python truthiness: `if not value_range` fires only on `None` (a 2-tuple
is always truthy); `if not temperature_category` also fires on the
empty string. -/
def generate_mask (result : AnalysisResult) (mode : String)
    (value_range : Option (ℤ × ℤ)) (hue : Option ℚ) (hue_tolerance : ℚ)
    (cluster_rank_index : Option ℤ) (temperature_category : Option String)
    (ground_lab : Option (ℚ × ℚ × ℚ)) (ground_tolerance : ℚ) :
    Except String (List (List Bool)) :=
  if mode = "value" then
    match value_range with
    | none => .error "value_range required for value mask"
    | some (lower_bin, upper_bin) =>
      .ok (_mask_from_value (result.lab_array.map (fun row => row.map (·.1)))
        lower_bin upper_bin)
  else if mode = "hue" then
    match hue with
    | none => .error "hue required for hue mask"
    | some h =>
      .ok (_mask_from_hue (result.lch_array.map (fun row => row.map (·.2.2)))
        h hue_tolerance)
  else if mode = "cluster" then
    match cluster_rank_index with
    | none => .error "cluster_rank_index required for cluster mask"
    | some r =>
      _mask_from_cluster result.labels r (result.clusters.map (·.index))
  else if mode = "temperature" then
    match temperature_category with
    | none => .error "temperature_category required"
    | some cat =>
      if cat = "" then .error "temperature_category required"
      else _mask_from_temperature result.temperature_map cat
  else if mode = "ground" then
    match ground_lab with
    | none => .error "ground_lab required for ground mask"
    | some t => .ok (_mask_from_ground_lab result.lab_array t ground_tolerance)
  else .error ("Unknown mode: " ++ mode)

/-! ## analysis.py -/

/-- Model of `analysis.MAX_ANALYSIS_EDGE`. -/
def MAX_ANALYSIS_EDGE : Nat := 1600

/-- Binade exponent of a positive rational: the unique `e` with
`2^e ≤ q < 2^(e+1)` (meaningless for `q ≤ 0`, which never occurs here). -/
def fl64_exp (q : ℚ) : ℤ :=
  if 1 ≤ q then (Nat.log 2 ⌊q⌋.toNat : ℤ)
  else -((Nat.log 2 (⌈q⁻¹⌉.toNat - 1) : ℤ) + 1)

/-- Model of IEEE-754 binary64 rounding of an exact rational: the value
is placed in its binade `[2^e, 2^(e+1))` and its 53-bit significand is
rounded to nearest, ties to even (`np_round`).  Image dimensions and
scale factors stay far inside the normal range, so overflow and
subnormals need no modelling.  Python evaluates `max_edge / max(h, w)`
and `dim * scale` in binary64, one such rounding per operation. -/
def fl64 (q : ℚ) : ℚ :=
  if q = 0 then 0
  else if q < 0 then
    -((np_round (-q / 2 ^ (fl64_exp (-q) - 52)) : ℚ) * 2 ^ (fl64_exp (-q) - 52))
  else (np_round (q / 2 ^ (fl64_exp q - 52)) : ℚ) * 2 ^ (fl64_exp q - 52)

/-- Size-and-scale part of `analysis.downsample_image`: the scale is the
binary64 quotient `max_edge / max(h, w)`, each product `dim * scale` is
a binary64 multiplication, and Python's `int()` truncates it (floors,
for non-negative floats) — so e.g. a 2156-pixel longer edge yields
`int(1599.9999999999998) = 1599`, not 1600.  Images whose longer edge
does not exceed `max_edge` are returned unscaled with `scale = 1.0`. -/
def downsample_dims (h w max_edge : Nat) : (Nat × Nat) × ℚ :=
  if max h w > max_edge then
    let scale : ℚ := fl64 ((max_edge : ℚ) / ((max h w : ℕ) : ℚ))
    ((⌊fl64 ((h : ℚ) * scale)⌋.toNat, ⌊fl64 ((w : ℚ) * scale)⌋.toNat), scale)
  else ((h, w), 1)

/-- Model of `analysis.downsample_image` over pixel content.  `cv2.resize` with
`INTER_AREA` is an external collaborator, passed in as `resize`; the
small-image branch returns `img.copy()`, i.e. a pixel-identical image,
modelled as `img` itself.  The large-image branch computes its target
size with the same binary64 arithmetic as `downsample_dims`. -/
def downsample_image (resize : List (List (Nat × Nat × Nat)) → Nat × Nat →
      List (List (Nat × Nat × Nat)))
    (img : List (List (Nat × Nat × Nat))) (max_edge : Nat) :
    List (List (Nat × Nat × Nat)) × ℚ :=
  let h := img.length
  let w := (img.headD []).length
  if max h w > max_edge then
    let scale : ℚ := fl64 ((max_edge : ℚ) / ((max h w : ℕ) : ℚ))
    (resize img (⌊fl64 ((w : ℚ) * scale)⌋.toNat, ⌊fl64 ((h : ℚ) * scale)⌋.toNat),
      scale)
  else (img, 1)

/-- Bin index used by `np.histogram` with `bins = n` uniform buckets
over `[lo, hi]`: in-range values land in bucket
`min ⌊(x-lo)·n/(hi-lo)⌋ (n-1)` (the right edge closes the last bin). -/
def hist_index (lo hi : ℚ) (n : Nat) (x : ℚ) : Nat :=
  min (⌊(x - lo) * n / (hi - lo)⌋.toNat) (n - 1)

/-- Model of `np.histogram(xs, bins = n, range = (lo, hi))`: per-bin counts;
values outside `[lo, hi]` are dropped. -/
def np_histogram (xs : List ℚ) (n : Nat) (lo hi : ℚ) : List Nat :=
  (List.range n).map (fun i =>
    xs.countP (fun x => decide (lo ≤ x ∧ x ≤ hi ∧ hist_index lo hi n x = i)))

/-- Model of `analysis.compute_value_histogram`: histogram of `np.clip(L, 0, 100)`
over `[0, 100]`. -/
def compute_value_histogram (L : List ℚ) (bins : Nat) : List Nat :=
  np_histogram (L.map (fun x => qclip x 0 100)) bins 0 100

/-- Model of `analysis.compute_hue_histogram`: histogram of H over `[0, 360]`. -/
def compute_hue_histogram (H : List ℚ) (bins : Nat) : List Nat :=
  np_histogram H bins 0 360

/-- Per-pixel body of `analysis.classify_temperature` on an LCh triple
`(L, C, H)`: the array code starts from cool (1), overwrites the warm
mask with 0, then overwrites the neutral mask with 2. -/
def classify_temperature_pixel (warm_span neutral_chroma : ℚ)
    (p : ℚ × ℚ × ℚ) : Nat :=
  let H := p.2.2
  let C := p.2.1
  let ws := qclip warm_span 0 180
  let warm_upper := ws
  let warm_lower := qmod (360 - ws) 360
  let afterWarm := if H ≤ warm_upper ∨ warm_lower ≤ H then 0 else 1
  if C < neutral_chroma then 2 else afterWarm

/-- Model of `analysis.classify_temperature` over a whole LCh array. -/
def classify_temperature (lch : List (List (ℚ × ℚ × ℚ)))
    (warm_span neutral_chroma : ℚ) : List (List Nat) :=
  lch.map (fun row => row.map (classify_temperature_pixel warm_span neutral_chroma))

/-- Post-fit part of `analysis.run_kmeans` (the `KMeans` fit itself is
an external collaborator producing `labels` and the two center lists):
`np.bincount` the labels, build one `ClusterInfo` per original id
`i < k`, then stable-sort by descending pixel count
(`clusters.sort(key=..., reverse=True)` is Python's stable sort, which
`List.mergeSort` also is). -/
def rank_clusters (labels : List Nat)
    (centers_lab centers_lch : List (ℚ × ℚ × ℚ)) (k : Nat) : List ClusterInfo :=
  let clusters := (List.range k).map (fun i =>
    ClusterInfo.mk i (centers_lab.getD i (0, 0, 0)) (centers_lch.getD i (0, 0, 0))
      (labels.count i))
  clusters.mergeSort (fun a b => decide (b.pixel_count ≤ a.pixel_count))

/-- Model of `analysis.AnalysisResult.serialize_clusters`, keeping the fields
`(index, pixelCount, percentage)`: the serialized `index` is the
record's own `index` field. -/
def serialize_clusters (clusters : List ClusterInfo) : List (Nat × Nat × ℚ) :=
  let total := (clusters.map (·.pixel_count)).sum
  clusters.map (fun c =>
    (c.index, c.pixel_count,
      if total = 0 then 0 else (c.pixel_count : ℚ) / (total : ℚ)))

/-! ## ground.py -/

/-- Model of `ground.GROUND_VALUE_RANGE`. -/
def GROUND_VALUE_RANGE : ℚ × ℚ := (35, 65)

/-- Model of `ground.GROUND_CHROMA_MAX`. -/
def GROUND_CHROMA_MAX : ℚ := 8

/-- Loop body of `ground.detect_ground_cluster`: the accumulator is
`(candidate, candidate_pixels)`, updated whenever a cluster is eligible
(lightness within `GROUND_VALUE_RANGE`, chroma below
`GROUND_CHROMA_MAX`) and strictly beats the best pixel count so far. -/
def dg_step (acc : Option Nat × ℤ) (p : Nat × ClusterInfo) : Option Nat × ℤ :=
  let L := p.2.center_lch.1
  let C := p.2.center_lch.2.1
  if (GROUND_VALUE_RANGE.1 ≤ L ∧ L ≤ GROUND_VALUE_RANGE.2 ∧ C < GROUND_CHROMA_MAX)
      ∧ acc.2 < (p.2.pixel_count : ℤ) then
    (some p.1, (p.2.pixel_count : ℤ))
  else acc

/-- Model of `ground.detect_ground_cluster`: fold the loop body over the ranked
cluster list, starting from `candidate = None`, `candidate_pixels = -1`. -/
def detect_ground_cluster (result : AnalysisResult) : Option Nat :=
  (result.clusters.enum.foldl dg_step (none, -1)).1

/-! ## palette.py -/

/-- Model of `palette.PaletteEntry`, restricted to the fields the matcher reads. -/
structure PaletteEntryM where
  id : String
  name : String
  hex : String
  lab : ℚ × ℚ × ℚ
  lch : ℚ × ℚ × ℚ
deriving Repr, DecidableEq

/-- Square of `palette.delta_e`: the source returns
`sqrt((1.5*dL)² + da² + db²)`; comparisons of the root coincide with
comparisons of this square, which stays rational. -/
def delta_e_sq (lab1 lab2 : ℚ × ℚ × ℚ) : ℚ :=
  let dL := lab1.1 - lab2.1
  let da := lab1.2.1 - lab2.2.1
  let db := lab1.2.2 - lab2.2.2
  (3/2 * dL)^2 + da^2 + db^2

/-- Model of `palette.match_palette`: score every entry, stable-sort ascending by
`deltaE`, take the first `top_n`.  Entries are annotated with their
original palette position; a stable sort by key is the same as sorting
by the lexicographic pair (key, original position). -/
def match_palette (palette : List PaletteEntryM) (lab_color : ℚ × ℚ × ℚ)
    (top_n : Nat) : List (Nat × PaletteEntryM × ℚ) :=
  let candidates := palette.enum.map (fun p => (p.1, p.2, delta_e_sq lab_color p.2.lab))
  (candidates.mergeSort (fun a b =>
    decide (a.2.2 < b.2.2 ∨ (a.2.2 = b.2.2 ∧ a.1 ≤ b.1)))).take top_n

/-! ## main.py and schemas.py: the `/mask` and `/export` handlers -/

/-- Outcome of attempting a Python function call with keyword arguments
whose values are read off a pydantic request object. -/
inductive PyCallError where
  | attributeError (field : String)
  | typeError (kw : String)
deriving Repr, DecidableEq

/-- Keyword-bindable parameters of `mask_ops.generate_mask`'s signature
(everything after the bare `*`). -/
def generate_mask_keyword_params : List String :=
  ["value_range", "hue", "hue_tolerance", "cluster_rank_index",
   "temperature_category", "ground_lab", "ground_tolerance"]

/-- Field names declared by `schemas.MaskRequest`. -/
def mask_request_fields : List String :=
  ["analysisId", "mode", "valueRange", "hue", "hueTolerance",
   "clusterRankIndex", "temperatureCategory", "groundLab", "groundTolerance",
   "warmSpan", "neutralChroma", "views", "upscale"]

/-- Field names declared by `schemas.ExportRequest`. -/
def export_request_fields : List String :=
  ["analysisId", "mode", "valueRange", "hue", "hueTolerance",
   "clusterRankIndex", "temperatureCategory", "groundLab", "groundTolerance"]

/-- The `generate_mask(...)` call arguments appearing in both the
`/mask` and `/export` handlers, in source evaluation order: each entry
is `(keyword name if passed by keyword, request field read to produce
the value)`.  `result` is a local, `ground_lab` a precomputed local. -/
def handler_generate_mask_args : List (Option String × Option String) :=
  [(none, none), (none, some "mode"),
   (some "value_range", some "valueRange"), (some "hue", some "hue"),
   (some "hue_tolerance", some "hueTolerance"),
   (some "cluster_rank_index", some "clusterRankIndex"),
   (some "temperature_category", some "temperatureCategory"),
   (some "ground_lab", none),
   (some "ground_tolerance", some "groundTolerance"),
   (some "warm_span", some "warmSpan"),
   (some "neutral_chroma", some "neutralChroma")]

/-- Python call semantics for such a call: argument expressions are
evaluated left to right first (an attribute read of a field the pydantic
model does not declare raises `AttributeError`), then keywords are bound
against the callee signature (an undeclared keyword raises `TypeError`);
only if both steps succeed does the callee body run. -/
def eval_python_call (req_fields declared : List String)
    (args : List (Option String × Option String)) : Option PyCallError :=
  match args.find? (fun a => match a.2 with
    | some f => !(req_fields.contains f)
    | none => false) with
  | some a => some (.attributeError (a.2.getD ""))
  | none =>
    match args.find? (fun a => match a.1 with
      | some k => !(declared.contains k)
      | none => false) with
    | some a => some (.typeError (a.1.getD ""))
    | none => none

/-! ## Concrete instances used by witnesses and counterexamples -/

/-- The spec's 2×2 cluster-mask example: label map `[[0,1],[0,1]]`,
rank 0 holding original id 0. -/
def res2x2 : AnalysisResult where
  lab_array := [[(0, 0, 0), (0, 0, 0)], [(0, 0, 0), (0, 0, 0)]]
  lch_array := [[(0, 0, 0), (0, 0, 0)], [(0, 0, 0), (0, 0, 0)]]
  temperature_map := [[0, 0], [0, 0]]
  clusters :=
    [ClusterInfo.mk 0 (50, 0, 0) (50, 2, 10) 2,
     ClusterInfo.mk 1 (70, 10, -5) (70, 3, 190) 2]
  labels := [[0, 1], [0, 1]]
  downscale_ratio := 1

/-- One-pixel result whose hue sits 11 degrees away from hue 0. -/
def res_hue : AnalysisResult where
  lab_array := [[(50, 0, 0)]]
  lch_array := [[(50, 50, 11)]]
  temperature_map := [[0]]
  clusters := []
  labels := [[0]]
  downscale_ratio := 1

/-- Two clusters: rank 0 fails the ground lightness window, rank 1
passes it. -/
def res_dg : AnalysisResult where
  lab_array := [[(0, 0, 0)]]
  lch_array := [[(0, 0, 0)]]
  temperature_map := [[0]]
  clusters :=
    [ClusterInfo.mk 0 (80, 0, 0) (80, 3, 0) 100,
     ClusterInfo.mk 1 (50, 0, 0) (50, 3, 0) 40]
  labels := [[0]]
  downscale_ratio := 1

/-- Two-entry palette used to instantiate the matcher. -/
def pal2 : List PaletteEntryM :=
  [PaletteEntryM.mk "olive-umber-wash" "Olive Umber Wash" "#7B7A64"
     (49, -2, 11) (49, 11, 100),
   PaletteEntryM.mk "cool-slate" "Cool Slate" "#6F7684"
     (49, 1, -8) (49, 8, 277)]

/-! ## Theorems -/

/-- C2 (counterexample): the claim says the `/export` handler's
`generate_mask` call raises `TypeError`; in fact argument evaluation
fails first: `ExportRequest` declares no `warmSpan` field, so reading
`request.warmSpan` raises `AttributeError` and the call is never bound. -/
theorem export_handler_attribute_error :
    eval_python_call export_request_fields generate_mask_keyword_params
      handler_generate_mask_args = some (.attributeError "warmSpan") := by
  decide

/-- C2 (amended): both handlers pass `warm_span`/`neutral_chroma`, which
`generate_mask` does not declare; the `/mask` handler's call therefore
raises `TypeError` on keyword binding (`MaskRequest` does declare all
the fields read, and the failure is independent of the mask mode), while
the `/export` handler fails even earlier with `AttributeError` reading
`request.warmSpan`.  Either way no mask is ever computed. -/
theorem handlers_fail_before_any_mask :
    eval_python_call mask_request_fields generate_mask_keyword_params
      handler_generate_mask_args = some (.typeError "warm_span") ∧
    eval_python_call export_request_fields generate_mask_keyword_params
      handler_generate_mask_args = some (.attributeError "warmSpan") := by
  constructor <;> decide

/-- Evaluating `np_round` when the fractional part is below one half. -/
theorem np_round_eq_floor {x : ℚ} (h : x - ⌊x⌋ < 1/2) : np_round x = ⌊x⌋ := by
  simp only [np_round]
  rw [if_pos h]

/-- Evaluating `np_round` at an integer. -/
theorem np_round_intCast (n : ℤ) : np_round ((n : ℚ)) = n := by
  have h : ((n : ℚ)) - ⌊((n : ℚ))⌋ < 1/2 := by
    rw [Int.floor_intCast]
    norm_num
  rw [np_round_eq_floor h, Int.floor_intCast]

/-- Rounding a non-negative value to nearest even is non-negative. -/
theorem np_round_nonneg {x : ℚ} (hx : 0 ≤ x) : 0 ≤ np_round x := by
  have hf : 0 ≤ ⌊x⌋ := Int.floor_nonneg.mpr hx
  simp only [np_round]
  split
  · exact hf
  · split
    · omega
    · split
      · exact hf
      · omega

/-- Casting a natural power of two into ℚ as an integer power. -/
theorem zpow_coe_nat_q (m : ℕ) : (2 : ℚ) ^ ((m : ℕ) : ℤ) = ((2 ^ m : ℕ) : ℚ) := by
  rw [zpow_natCast]
  push_cast
  ring

/-- The binade exponent is correct: `2 ^ fl64_exp q ≤ q < 2 ^ (fl64_exp q + 1)`
for every positive rational. -/
theorem fl64_exp_bounds {q : ℚ} (hq : 0 < q) :
    (2 : ℚ) ^ fl64_exp q ≤ q ∧ q < (2 : ℚ) ^ (fl64_exp q + 1) := by
  unfold fl64_exp
  by_cases h1 : 1 ≤ q
  · rw [if_pos h1]
    have hfl0 : 0 ≤ ⌊q⌋ := Int.floor_nonneg.mpr (le_of_lt hq)
    have hfl1 : 1 ≤ ⌊q⌋ := Int.le_floor.mpr (by exact_mod_cast h1)
    have hfc : ((⌊q⌋.toNat : ℕ) : ℚ) = ((⌊q⌋ : ℤ) : ℚ) := by
      exact_mod_cast Int.toNat_of_nonneg hfl0
    have hnq : ((⌊q⌋.toNat : ℕ) : ℚ) ≤ q := by
      rw [hfc]
      exact Int.floor_le q
    have hqn : q < ((⌊q⌋.toNat : ℕ) : ℚ) + 1 := by
      rw [hfc]
      exact Int.lt_floor_add_one q
    have hn0 : ⌊q⌋.toNat ≠ 0 := by omega
    constructor
    · calc (2 : ℚ) ^ ((Nat.log 2 ⌊q⌋.toNat : ℕ) : ℤ)
          = ((2 ^ Nat.log 2 ⌊q⌋.toNat : ℕ) : ℚ) := zpow_coe_nat_q _
        _ ≤ ((⌊q⌋.toNat : ℕ) : ℚ) := by
            exact_mod_cast Nat.pow_log_le_self 2 hn0
        _ ≤ q := hnq
    · have hstep : (((Nat.log 2 ⌊q⌋.toNat : ℕ) : ℤ) + 1)
          = (((Nat.log 2 ⌊q⌋.toNat + 1 : ℕ)) : ℤ) := by
        push_cast
        ring
      calc q < ((⌊q⌋.toNat : ℕ) : ℚ) + 1 := hqn
        _ ≤ ((2 ^ (Nat.log 2 ⌊q⌋.toNat + 1) : ℕ) : ℚ) := by
            exact_mod_cast Nat.succ_le_of_lt
              (Nat.lt_pow_succ_log_self (by norm_num) ⌊q⌋.toNat)
        _ = (2 : ℚ) ^ (((Nat.log 2 ⌊q⌋.toNat : ℕ) : ℤ) + 1) := by
            rw [hstep, zpow_coe_nat_q]
  · rw [if_neg h1]
    push_neg at h1
    have hr : 1 < q⁻¹ := one_lt_inv hq h1
    have hrpos : 0 < q⁻¹ := lt_trans one_pos hr
    have hc2 : 2 ≤ ⌈q⁻¹⌉ := by
      have h := Int.lt_ceil.mpr (show ((1 : ℤ) : ℚ) < q⁻¹ by exact_mod_cast hr)
      omega
    have hcnn : 0 ≤ ⌈q⁻¹⌉ := by omega
    have hlo : 2 ^ Nat.log 2 (⌈q⁻¹⌉.toNat - 1) ≤ ⌈q⁻¹⌉.toNat - 1 :=
      Nat.pow_log_le_self 2 (by omega)
    have hhi : ⌈q⁻¹⌉.toNat - 1 < 2 ^ (Nat.log 2 (⌈q⁻¹⌉.toNat - 1) + 1) :=
      Nat.lt_pow_succ_log_self (by norm_num) _
    have hcc : ((⌈q⁻¹⌉.toNat : ℕ) : ℚ) = ((⌈q⁻¹⌉ : ℤ) : ℚ) := by
      exact_mod_cast Int.toNat_of_nonneg hcnn
    have hrlec : q⁻¹ ≤ ((⌈q⁻¹⌉.toNat : ℕ) : ℚ) := by
      rw [hcc]
      exact Int.le_ceil _
    have hcltr : (((⌈q⁻¹⌉.toNat - 1 : ℕ)) : ℚ) < q⁻¹ := by
      have h := Int.ceil_lt_add_one (q⁻¹)
      have hcast : (((⌈q⁻¹⌉.toNat - 1 : ℕ)) : ℚ) = ((⌈q⁻¹⌉ : ℤ) : ℚ) - 1 := by
        rw [Nat.cast_sub (by omega : 1 ≤ ⌈q⁻¹⌉.toNat), hcc]
        norm_num
      rw [hcast]
      linarith
    constructor
    · have hcle : ((⌈q⁻¹⌉.toNat : ℕ) : ℚ)
          ≤ ((2 ^ (Nat.log 2 (⌈q⁻¹⌉.toNat - 1) + 1) : ℕ) : ℚ) := by
        exact_mod_cast
          (by omega : ⌈q⁻¹⌉.toNat ≤ 2 ^ (Nat.log 2 (⌈q⁻¹⌉.toNat - 1) + 1))
      have hinv := inv_le_inv_of_le hrpos (le_trans hrlec hcle)
      rw [inv_inv] at hinv
      calc (2 : ℚ) ^ (-(((Nat.log 2 (⌈q⁻¹⌉.toNat - 1) : ℕ) : ℤ) + 1))
          = (((2 ^ (Nat.log 2 (⌈q⁻¹⌉.toNat - 1) + 1) : ℕ) : ℚ))⁻¹ := by
            rw [show ((((Nat.log 2 (⌈q⁻¹⌉.toNat - 1) : ℕ)) : ℤ) + 1)
                = (((Nat.log 2 (⌈q⁻¹⌉.toNat - 1) + 1 : ℕ)) : ℤ) by push_cast; ring,
              zpow_neg, zpow_coe_nat_q]
        _ ≤ q := hinv
    · have h2fr : ((2 ^ Nat.log 2 (⌈q⁻¹⌉.toNat - 1) : ℕ) : ℚ) < q⁻¹ :=
        lt_of_le_of_lt (by exact_mod_cast hlo) hcltr
      have hpos2f : (0 : ℚ) < ((2 ^ Nat.log 2 (⌈q⁻¹⌉.toNat - 1) : ℕ) : ℚ) := by
        positivity
      have hinv := inv_lt_inv_of_lt hpos2f h2fr
      rw [inv_inv] at hinv
      calc q < (((2 ^ Nat.log 2 (⌈q⁻¹⌉.toNat - 1) : ℕ) : ℚ))⁻¹ := hinv
        _ = (2 : ℚ) ^ (-((Nat.log 2 (⌈q⁻¹⌉.toNat - 1) : ℕ) : ℤ)) := by
            rw [zpow_neg, zpow_coe_nat_q]
        _ = (2 : ℚ) ^ ((-(((Nat.log 2 (⌈q⁻¹⌉.toNat - 1) : ℕ) : ℤ) + 1)) + 1) := by
            congr 1
            ring

/-- A positive rational sits in a unique binade. -/
theorem binade_exp_unique {q : ℚ} {e1 e2 : ℤ} (h1a : (2 : ℚ) ^ e1 ≤ q)
    (h1b : q < (2 : ℚ) ^ (e1 + 1)) (h2a : (2 : ℚ) ^ e2 ≤ q)
    (h2b : q < (2 : ℚ) ^ (e2 + 1)) : e1 = e2 := by
  by_contra hne
  rcases lt_or_gt_of_ne hne with hlt | hlt
  · have h := zpow_le_zpow_right₀ (by norm_num : (1 : ℚ) ≤ 2)
      (by omega : e1 + 1 ≤ e2)
    linarith
  · have h := zpow_le_zpow_right₀ (by norm_num : (1 : ℚ) ≤ 2)
      (by omega : e2 + 1 ≤ e1)
    linarith

/-- Pinning down the binade exponent from explicit bounds. -/
theorem fl64_exp_eq {q : ℚ} {e : ℤ} (hq : 0 < q) (h1 : (2 : ℚ) ^ e ≤ q)
    (h2 : q < (2 : ℚ) ^ (e + 1)) : fl64_exp q = e :=
  binade_exp_unique (fl64_exp_bounds hq).1 (fl64_exp_bounds hq).2 h1 h2

/-- Evaluating `fl64` on a positive rational, given its binade and
rounded significand. -/
theorem fl64_eval {q : ℚ} {e n : ℤ} (hq : 0 < q) (h1 : (2 : ℚ) ^ e ≤ q)
    (h2 : q < (2 : ℚ) ^ (e + 1)) (hn : np_round (q / 2 ^ (e - 52)) = n) :
    fl64 q = (n : ℚ) * 2 ^ (e - 52) := by
  unfold fl64
  rw [if_neg (ne_of_gt hq), if_neg (not_lt.mpr (le_of_lt hq)),
    fl64_exp_eq hq h1 h2, hn]

/-- A value already on the 53-bit grid of its binade is a fixed point of
`fl64` (exactly representable doubles round to themselves). -/
theorem fl64_eq_self {q : ℚ} {e m : ℤ} (hq : 0 < q) (h1 : (2 : ℚ) ^ e ≤ q)
    (h2 : q < (2 : ℚ) ^ (e + 1)) (hm : q / 2 ^ (e - 52) = (m : ℚ)) :
    fl64 q = q := by
  have h := fl64_eval hq h1 h2 (by rw [hm, np_round_intCast])
  rw [h, ← hm, div_mul_cancel₀]
  exact zpow_ne_zero _ (by norm_num)

/-- Binary64 rounding preserves non-negativity. -/
theorem fl64_nonneg {q : ℚ} (hq : 0 ≤ q) : 0 ≤ fl64 q := by
  rcases eq_or_lt_of_le hq with h | h
  · rw [fl64, if_pos h.symm]
  · unfold fl64
    rw [if_neg (ne_of_gt h), if_neg (not_lt.mpr (le_of_lt h))]
    apply mul_nonneg
    · exact_mod_cast np_round_nonneg (by positivity)
    · positivity

/-- The scale 1600/3200 is the exactly representable double 1/2. -/
theorem fl64_half : fl64 ((1600 : ℚ) / 3200) = 1/2 := by
  have harg : ((1600 : ℚ) / 3200) = 1/2 := by norm_num
  rw [harg]
  exact fl64_eq_self (by norm_num)
    (show (2 : ℚ) ^ (-1 : ℤ) ≤ 1/2 by norm_num)
    (show (1/2 : ℚ) < (2 : ℚ) ^ ((-1 : ℤ) + 1) by norm_num)
    (show (1/2 : ℚ) / 2 ^ ((-1 : ℤ) - 52) = ((4503599627370496 : ℤ) : ℚ) by
      norm_num)

/-- The product 3200·(1/2) = 1600 is exactly representable. -/
theorem fl64_sixteen_hundred : fl64 ((3200 : ℚ) * (1/2)) = 1600 := by
  have harg : ((3200 : ℚ) * (1/2)) = 1600 := by norm_num
  rw [harg]
  exact fl64_eq_self (by norm_num)
    (show (2 : ℚ) ^ (10 : ℤ) ≤ 1600 by norm_num)
    (show (1600 : ℚ) < (2 : ℚ) ^ ((10 : ℤ) + 1) by norm_num)
    (show (1600 : ℚ) / 2 ^ ((10 : ℤ) - 52) = ((7036874417766400 : ℤ) : ℚ) by
      norm_num)

/-- The product 1600·(1/2) = 800 is exactly representable. -/
theorem fl64_eight_hundred : fl64 ((1600 : ℚ) * (1/2)) = 800 := by
  have harg : ((1600 : ℚ) * (1/2)) = 800 := by norm_num
  rw [harg]
  exact fl64_eq_self (by norm_num)
    (show (2 : ℚ) ^ (9 : ℤ) ≤ 800 by norm_num)
    (show (800 : ℚ) < (2 : ℚ) ^ ((9 : ℤ) + 1) by norm_num)
    (show (800 : ℚ) / 2 ^ ((9 : ℤ) - 52) = ((7036874417766400 : ℤ) : ℚ) by
      norm_num)

/-- The product 1603·(1/2) = 801.5 is exactly representable. -/
theorem fl64_eight_oh_one_half : fl64 ((1603 : ℚ) * (1/2)) = 1603/2 := by
  have harg : ((1603 : ℚ) * (1/2)) = 1603/2 := by norm_num
  rw [harg]
  exact fl64_eq_self (by norm_num)
    (show (2 : ℚ) ^ (9 : ℤ) ≤ 1603/2 by norm_num)
    (show (1603/2 : ℚ) < (2 : ℚ) ^ ((9 : ℤ) + 1) by norm_num)
    (show (1603/2 : ℚ) / 2 ^ ((9 : ℤ) - 52) = ((7050068557299712 : ℤ) : ℚ) by
      norm_num)

/-- The double closest to 1600/2156: its significand rounds down, giving
the float64 value `0.7421150278293135 = 6684377925596283 / 2^53`. -/
theorem fl64_scale_2156 : fl64 ((1600 : ℚ) / 2156) = 6684377925596283 / 2 ^ 53 := by
  have harg : ((1600 : ℚ) / 2156) = 400/539 := by norm_num
  rw [harg]
  have hfrac : (3602879701896396800/539 : ℚ) - ⌊(3602879701896396800/539 : ℚ)⌋
      < 1/2 := by norm_num
  have h := fl64_eval (show (0 : ℚ) < 400/539 by norm_num)
    (show (2 : ℚ) ^ (-1 : ℤ) ≤ 400/539 by norm_num)
    (show (400/539 : ℚ) < (2 : ℚ) ^ ((-1 : ℤ) + 1) by norm_num)
    (show np_round ((400/539 : ℚ) / 2 ^ ((-1 : ℤ) - 52)) = 6684377925596283 by
      rw [show ((400/539 : ℚ) / 2 ^ ((-1 : ℤ) - 52)) = 3602879701896396800/539 by
          norm_num,
        np_round_eq_floor hfrac]
      norm_num)
  rw [h]
  norm_num

/-- The float64 product 2156 · fl64(1600/2156): the exact product is
1599.9999999999998…, and its rounded double is still strictly below
1600. -/
theorem fl64_prod_2156 :
    fl64 ((2156 : ℚ) * (6684377925596283 / 2 ^ 53)) = 7036874417766399 / 2 ^ 42 := by
  have harg : ((2156 : ℚ) * (6684377925596283 / 2 ^ 53))
      = 3602879701896396537/2251799813685248 := by norm_num
  rw [harg]
  have hfrac : (3602879701896396537/512 : ℚ) - ⌊(3602879701896396537/512 : ℚ)⌋
      < 1/2 := by norm_num
  have h := fl64_eval
    (show (0 : ℚ) < 3602879701896396537/2251799813685248 by norm_num)
    (show (2 : ℚ) ^ (10 : ℤ) ≤ 3602879701896396537/2251799813685248 by norm_num)
    (show (3602879701896396537/2251799813685248 : ℚ) < (2 : ℚ) ^ ((10 : ℤ) + 1) by
      norm_num)
    (show np_round ((3602879701896396537/2251799813685248 : ℚ) / 2 ^ ((10 : ℤ) - 52))
        = 7036874417766399 by
      rw [show ((3602879701896396537/2251799813685248 : ℚ) / 2 ^ ((10 : ℤ) - 52))
          = 3602879701896396537/512 by norm_num,
        np_round_eq_floor hfrac]
      norm_num)
  rw [h]
  norm_num

/-- C4 (counterexample): a 3200×1603 image is rescaled by 1/2 (here the
float64 arithmetic is exact), and the width becomes `int(801.5) = 801`,
not `round(801.5) = 802` as the claim states. -/
theorem downsample_truncates_cex :
    (downsample_dims 3200 1603 MAX_ANALYSIS_EDGE).1 = (1600, 801) ∧
    round ((1603 : ℚ) * ((MAX_ANALYSIS_EDGE : ℚ) / (max 3200 1603 : ℚ))) = 802 := by
  constructor
  · have hcond : max 3200 1603 > MAX_ANALYSIS_EDGE := by
      norm_num [MAX_ANALYSIS_EDGE]
    unfold downsample_dims
    rw [if_pos hcond]
    have harg : (MAX_ANALYSIS_EDGE : ℚ) / ((max 3200 1603 : ℕ) : ℚ)
        = (1600 : ℚ) / 3200 := by
      norm_num [MAX_ANALYSIS_EDGE]
    rw [harg, fl64_half]
    have hh : (((3200 : ℕ) : ℚ)) * (1/2) = (3200 : ℚ) * (1/2) := by norm_num
    have hw : (((1603 : ℕ) : ℚ)) * (1/2) = (1603 : ℚ) * (1/2) := by norm_num
    simp only [hh, hw, fl64_sixteen_hundred, fl64_eight_oh_one_half]
    have h1 : ⌊(1600 : ℚ)⌋ = 1600 := by norm_num
    have h2 : ⌊(1603/2 : ℚ)⌋ = 801 := by norm_num
    rw [h1, h2]
    rfl
  · norm_num [MAX_ANALYSIS_EDGE, round_eq]

/-- C4 (amended): `downsample` with `maxEdge = 1600` leaves any image
with `max(H,W) ≤ 1600` pixel-identical with scale exactly 1.0; an image
whose longer edge exceeds 1600 is resized with area-averaging
interpolation, the scale being the binary64 quotient `1600/max(H,W)`
and each output dimension the *truncation* `int(dim*scale)` of the
binary64 product — truncation, not `round`, and binary64, not exact
arithmetic: a 3200×1600 input returns scale 0.5 with dimensions
1600×800, while a 2156×1000 input yields a longer edge of 1599, since
`2156 * (1600/2156) = 1599.9999999999998` in float64. -/
theorem downsample_spec (h w : Nat) :
    (MAX_ANALYSIS_EDGE < max h w →
      ∃ d1 d2,
        downsample_dims h w MAX_ANALYSIS_EDGE =
          ((d1, d2), fl64 ((MAX_ANALYSIS_EDGE : ℚ) / ((max h w : ℕ) : ℚ))) ∧
        ((d1 : ℚ) ≤ fl64 ((h : ℚ) *
            fl64 ((MAX_ANALYSIS_EDGE : ℚ) / ((max h w : ℕ) : ℚ))) ∧
          fl64 ((h : ℚ) * fl64 ((MAX_ANALYSIS_EDGE : ℚ) / ((max h w : ℕ) : ℚ)))
            < (d1 : ℚ) + 1) ∧
        ((d2 : ℚ) ≤ fl64 ((w : ℚ) *
            fl64 ((MAX_ANALYSIS_EDGE : ℚ) / ((max h w : ℕ) : ℚ))) ∧
          fl64 ((w : ℚ) * fl64 ((MAX_ANALYSIS_EDGE : ℚ) / ((max h w : ℕ) : ℚ)))
            < (d2 : ℚ) + 1)) ∧
    (max h w ≤ MAX_ANALYSIS_EDGE →
      downsample_dims h w MAX_ANALYSIS_EDGE = ((h, w), 1) ∧
      ∀ resize img, img.length = h → (img.headD []).length = w →
        downsample_image resize img MAX_ANALYSIS_EDGE = (img, 1)) ∧
    downsample_dims 3200 1600 MAX_ANALYSIS_EDGE = ((1600, 800), 1/2) ∧
    (downsample_dims 2156 1000 MAX_ANALYSIS_EDGE).1.1 = 1599 := by
  refine ⟨?_, ?_, ?_, ?_⟩
  · intro hgt
    have hq0 : (0 : ℚ) ≤ (MAX_ANALYSIS_EDGE : ℚ) / ((max h w : ℕ) : ℚ) := by
      positivity
    have hs0 : 0 ≤ fl64 ((MAX_ANALYSIS_EDGE : ℚ) / ((max h w : ℕ) : ℚ)) :=
      fl64_nonneg hq0
    have hyh : 0 ≤ fl64 ((h : ℚ) *
        fl64 ((MAX_ANALYSIS_EDGE : ℚ) / ((max h w : ℕ) : ℚ))) :=
      fl64_nonneg (mul_nonneg (Nat.cast_nonneg h) hs0)
    have hyw : 0 ≤ fl64 ((w : ℚ) *
        fl64 ((MAX_ANALYSIS_EDGE : ℚ) / ((max h w : ℕ) : ℚ))) :=
      fl64_nonneg (mul_nonneg (Nat.cast_nonneg w) hs0)
    have hfh : 0 ≤ ⌊fl64 ((h : ℚ) *
        fl64 ((MAX_ANALYSIS_EDGE : ℚ) / ((max h w : ℕ) : ℚ)))⌋ :=
      Int.floor_nonneg.mpr hyh
    have hfw : 0 ≤ ⌊fl64 ((w : ℚ) *
        fl64 ((MAX_ANALYSIS_EDGE : ℚ) / ((max h w : ℕ) : ℚ)))⌋ :=
      Int.floor_nonneg.mpr hyw
    have hch : ((⌊fl64 ((h : ℚ) *
          fl64 ((MAX_ANALYSIS_EDGE : ℚ) / ((max h w : ℕ) : ℚ)))⌋.toNat : ℕ) : ℚ)
        = ((⌊fl64 ((h : ℚ) *
          fl64 ((MAX_ANALYSIS_EDGE : ℚ) / ((max h w : ℕ) : ℚ)))⌋ : ℤ) : ℚ) := by
      exact_mod_cast Int.toNat_of_nonneg hfh
    have hcw : ((⌊fl64 ((w : ℚ) *
          fl64 ((MAX_ANALYSIS_EDGE : ℚ) / ((max h w : ℕ) : ℚ)))⌋.toNat : ℕ) : ℚ)
        = ((⌊fl64 ((w : ℚ) *
          fl64 ((MAX_ANALYSIS_EDGE : ℚ) / ((max h w : ℕ) : ℚ)))⌋ : ℤ) : ℚ) := by
      exact_mod_cast Int.toNat_of_nonneg hfw
    refine ⟨⌊fl64 ((h : ℚ) *
        fl64 ((MAX_ANALYSIS_EDGE : ℚ) / ((max h w : ℕ) : ℚ)))⌋.toNat,
      ⌊fl64 ((w : ℚ) *
        fl64 ((MAX_ANALYSIS_EDGE : ℚ) / ((max h w : ℕ) : ℚ)))⌋.toNat,
      ?_, ⟨?_, ?_⟩, ⟨?_, ?_⟩⟩
    · unfold downsample_dims
      rw [if_pos hgt]
    · rw [hch]
      exact Int.floor_le _
    · rw [hch]
      exact Int.lt_floor_add_one _
    · rw [hcw]
      exact Int.floor_le _
    · rw [hcw]
      exact Int.lt_floor_add_one _
  · intro hle
    have h1 : downsample_dims h w MAX_ANALYSIS_EDGE = ((h, w), 1) := by
      unfold downsample_dims
      rw [if_neg (not_lt.mpr hle)]
    refine ⟨h1, ?_⟩
    intro resize img hh hw
    simp only [downsample_image, hh, hw]
    rw [if_neg (not_lt.mpr hle)]
  · have hcond : max 3200 1600 > MAX_ANALYSIS_EDGE := by
      norm_num [MAX_ANALYSIS_EDGE]
    unfold downsample_dims
    rw [if_pos hcond]
    have harg : (MAX_ANALYSIS_EDGE : ℚ) / ((max 3200 1600 : ℕ) : ℚ)
        = (1600 : ℚ) / 3200 := by
      norm_num [MAX_ANALYSIS_EDGE]
    rw [harg, fl64_half]
    have hh : (((3200 : ℕ) : ℚ)) * (1/2) = (3200 : ℚ) * (1/2) := by norm_num
    have hw : (((1600 : ℕ) : ℚ)) * (1/2) = (1600 : ℚ) * (1/2) := by norm_num
    simp only [hh, hw, fl64_sixteen_hundred, fl64_eight_hundred]
    have h1 : ⌊(1600 : ℚ)⌋ = 1600 := by norm_num
    have h2 : ⌊(800 : ℚ)⌋ = 800 := by norm_num
    rw [h1, h2]
    rfl
  · have hcond : max 2156 1000 > MAX_ANALYSIS_EDGE := by
      norm_num [MAX_ANALYSIS_EDGE]
    unfold downsample_dims
    rw [if_pos hcond]
    have harg : (MAX_ANALYSIS_EDGE : ℚ) / ((max 2156 1000 : ℕ) : ℚ)
        = (1600 : ℚ) / 2156 := by
      norm_num [MAX_ANALYSIS_EDGE]
    rw [harg, fl64_scale_2156]
    have hh : (((2156 : ℕ) : ℚ)) * (6684377925596283 / 2 ^ 53)
        = (2156 : ℚ) * (6684377925596283 / 2 ^ 53) := by norm_num
    simp only [hh, fl64_prod_2156]
    have h1 : ⌊(7036874417766399 : ℚ) / 2 ^ 42⌋ = 1599 := by norm_num
    rw [h1]
    rfl

/-- C4 (witness): `downsample_spec` exercised on both branches — the
800×600 copy case and the oversized 3200×1600 case. -/
theorem downsample_spec_witness :
    (max 800 600 ≤ MAX_ANALYSIS_EDGE ∧
      downsample_dims 800 600 MAX_ANALYSIS_EDGE = ((800, 600), 1)) ∧
    (MAX_ANALYSIS_EDGE < max 3200 1600 ∧
      ∃ d1 d2, downsample_dims 3200 1600 MAX_ANALYSIS_EDGE =
        ((d1, d2), fl64 ((MAX_ANALYSIS_EDGE : ℚ) / ((max 3200 1600 : ℕ) : ℚ)))) := by
  constructor
  · have hle : max 800 600 ≤ MAX_ANALYSIS_EDGE := by norm_num [MAX_ANALYSIS_EDGE]
    exact ⟨hle, ((downsample_spec 800 600).2.1 hle).1⟩
  · have hgt : MAX_ANALYSIS_EDGE < max 3200 1600 := by norm_num [MAX_ANALYSIS_EDGE]
    obtain ⟨d1, d2, heq, _, _⟩ := (downsample_spec 3200 1600).1 hgt
    exact ⟨hgt, d1, d2, heq⟩

/-- C7 (counterexample): with `warmSpan = 0` the code's lower warm bound
is `(360 - 0) % 360 = 0`, so every hue satisfies `H ≥ warm_lower` and a
chromatic pixel at hue 100 is labelled warm (0); the claim's rule
"warm iff `H ≤ 0` or `H ≥ 360 - 0`" makes that pixel cool instead. -/
theorem classify_temperature_warm_wrap_cex :
    classify_temperature_pixel 0 8 (50, 50, 100) = 0 ∧
    ¬((100 : ℚ) ≤ qclip 0 0 180 ∨ 360 - qclip 0 0 180 ≤ (100 : ℚ)) ∧
    ¬((50 : ℚ) < 8) := by
  refine ⟨?_, ?_, by norm_num⟩
  · norm_num [classify_temperature_pixel, qclip, qmod]
  · norm_num [qclip]

/-- C7 (amended): `classify_temperature` first clamps `warmSpan` to
`[0, 180]`, labels a pixel warm iff `H ≤ warmSpan` or
`H ≥ (360 − warmSpan) mod 360` (the source applies `% 360` to the lower
bound, which wraps to 0 when `warmSpan = 0`) and cool otherwise, then
overrides the label to neutral exactly where `C < neutralChroma`. -/
theorem classify_temperature_spec (warm_span neutral_chroma L C H : ℚ) :
    (0 ≤ qclip warm_span 0 180 ∧ qclip warm_span 0 180 ≤ 180) ∧
    (C < neutral_chroma →
      classify_temperature_pixel warm_span neutral_chroma (L, C, H) = 2) ∧
    (¬ C < neutral_chroma →
      (classify_temperature_pixel warm_span neutral_chroma (L, C, H) = 0 ↔
        (H ≤ qclip warm_span 0 180 ∨
          qmod (360 - qclip warm_span 0 180) 360 ≤ H)) ∧
      (classify_temperature_pixel warm_span neutral_chroma (L, C, H) = 1 ↔
        ¬(H ≤ qclip warm_span 0 180 ∨
          qmod (360 - qclip warm_span 0 180) 360 ≤ H))) := by
  refine ⟨⟨le_min (le_max_right _ _) (by norm_num), min_le_right _ _⟩, ?_, ?_⟩
  · intro hn
    simp only [classify_temperature_pixel]
    rw [if_pos hn]
  · intro hn
    simp only [classify_temperature_pixel]
    rw [if_neg hn]
    by_cases hw : H ≤ qclip warm_span 0 180 ∨
        qmod (360 - qclip warm_span 0 180) 360 ≤ H
    · rw [if_pos hw]
      simp [hw]
    · rw [if_neg hw]
      simp [hw]

/-- C7 (witness): `classify_temperature_spec` applied at
`warmSpan = 60`, `neutralChroma = 8` and a chromatic pixel of hue 30. -/
theorem classify_temperature_spec_witness :
    (¬ (50 : ℚ) < 8) ∧
    (classify_temperature_pixel 60 8 (40, 50, 30) = 0 ↔
      ((30 : ℚ) ≤ qclip 60 0 180 ∨ qmod (360 - qclip 60 0 180) 360 ≤ 30)) := by
  have h : ¬ (50 : ℚ) < 8 := by norm_num
  exact ⟨h, ((classify_temperature_spec 60 8 40 50 30).2.2 h).1⟩

/-- C3 (counterexample): called with no tolerance, `generate_mask`'s hue
tolerance is 10, not 12: a pixel whose circular hue distance from the
requested hue is 11 is left unmasked even though 11 ≤ 12. -/
theorem hue_default_tolerance_cex :
    generate_mask res_hue "hue" none (some 0) DEFAULT_HUE_TOLERANCE none none none
      DEFAULT_GROUND_TOLERANCE = .ok [[false]] ∧
    |qmod ((11 : ℚ) - 0 + 180) 360 - 180| ≤ 12 := by
  constructor
  · have hfalse : ¬(|qmod ((11 : ℚ) - 0 + 180) 360 - 180| ≤ DEFAULT_HUE_TOLERANCE) := by
      norm_num [qmod, DEFAULT_HUE_TOLERANCE]
    simp [generate_mask, res_hue, _mask_from_hue, hfalse]
    norm_num [qmod, DEFAULT_HUE_TOLERANCE]
  · norm_num [qmod]

/-- C3 (amended): when no tolerance is supplied the hue-mask tolerance
defaults to 10 degrees (the value 12 is only the HTTP schema's
`hueTolerance` default, passed explicitly by the handlers), and the mask
is true exactly at the pixels whose circular hue distance
`|((H - hue + 180) mod 360) - 180|` is at most the tolerance. -/
theorem hue_mask_default_spec (res : AnalysisResult) (h : ℚ) :
    DEFAULT_HUE_TOLERANCE = 10 ∧
    ∃ m, generate_mask res "hue" none (some h) DEFAULT_HUE_TOLERANCE none none none
        DEFAULT_GROUND_TOLERANCE = .ok m ∧
      ∀ i j, (m.get? i).bind (fun row => row.get? j) =
        ((res.lch_array.get? i).bind (fun row => row.get? j)).map
          (fun p =>
            decide (|qmod (p.2.2 - h + 180) 360 - 180| ≤ DEFAULT_HUE_TOLERANCE)) := by
  refine ⟨rfl, _mask_from_hue (res.lch_array.map (fun row => row.map (·.2.2)))
    h DEFAULT_HUE_TOLERANCE, by simp [generate_mask], ?_⟩
  intro i j
  simp only [_mask_from_hue, List.map_map, List.get?_map]
  cases hrow : res.lch_array.get? i with
  | none => rfl
  | some row =>
    show ((row.map (fun x => x.2.2)).map
        (fun H => decide (|qmod (H - h + 180) 360 - 180| ≤ DEFAULT_HUE_TOLERANCE))).get? j =
      Option.map
        (fun p => decide (|qmod (p.2.2 - h + 180) 360 - 180| ≤ DEFAULT_HUE_TOLERANCE))
        (row.get? j)
    rw [List.get?_map, List.get?_map, Option.map_map]
    cases row.get? j <;> rfl

/-- C3 (witness): `hue_mask_default_spec` applied to the one-pixel
result `res_hue` and hue 0. -/
theorem hue_mask_default_spec_witness :
    ∃ m, generate_mask res_hue "hue" none (some 0) DEFAULT_HUE_TOLERANCE none none
        none DEFAULT_GROUND_TOLERANCE = .ok m ∧
      ∀ i j, (m.get? i).bind (fun row => row.get? j) =
        ((res_hue.lch_array.get? i).bind (fun row => row.get? j)).map
          (fun p =>
            decide (|qmod (p.2.2 - 0 + 180) 360 - 180| ≤ DEFAULT_HUE_TOLERANCE)) :=
  (hue_mask_default_spec res_hue 0).2

/-- C1: cluster-mode `generate_mask` succeeds exactly on rank indices
`0 ≤ r < len(clusters)`, producing the mask that is true at a pixel iff
its label equals the original (unranked) cluster id stored at rank `r`
of the cluster list, and fails with the range error otherwise; on the
spec's 2×2 example with rank 0 holding original id 0 the mask is
`[[True, False], [True, False]]`. -/
theorem cluster_mask_spec :
    (∀ (res : AnalysisResult) (r : ℤ),
      (0 ≤ r ∧ r < (res.clusters.length : ℤ) →
        ∃ c m, res.clusters.get? r.toNat = some c ∧
          generate_mask res "cluster" none none DEFAULT_HUE_TOLERANCE (some r) none
            none DEFAULT_GROUND_TOLERANCE = .ok m ∧
          ∀ i j, (m.get? i).bind (fun row => row.get? j) =
            ((res.labels.get? i).bind (fun row => row.get? j)).map
              (fun l => decide (l = c.index))) ∧
      ((r < 0 ∨ (res.clusters.length : ℤ) ≤ r) →
        generate_mask res "cluster" none none DEFAULT_HUE_TOLERANCE (some r) none
          none DEFAULT_GROUND_TOLERANCE = .error "cluster_rank_index out of range")) ∧
    generate_mask res2x2 "cluster" none none DEFAULT_HUE_TOLERANCE (some 0) none
      none DEFAULT_GROUND_TOLERANCE = .ok [[true, false], [true, false]] := by
  have hbranch : ∀ (res : AnalysisResult) (r : ℤ),
      generate_mask res "cluster" none none DEFAULT_HUE_TOLERANCE (some r) none
        none DEFAULT_GROUND_TOLERANCE =
      _mask_from_cluster res.labels r (res.clusters.map (fun c => c.index)) := by
    intro res r
    simp [generate_mask]
  constructor
  · intro res r
    constructor
    · rintro ⟨hr0, hrlt⟩
      have hlt : r.toNat < res.clusters.length := by omega
      have hc : res.clusters.get? r.toNat =
          some (res.clusters.get ⟨r.toNat, hlt⟩) := List.get?_eq_get hlt
      have hnot : ¬(r < 0 ∨ ((res.clusters.map (fun c => c.index)).length : ℤ) ≤ r) := by
        rw [List.length_map]
        push_neg
        exact ⟨hr0, hrlt⟩
      have htarget : (res.clusters.map (fun c => c.index)).getD r.toNat 0 =
          (res.clusters.get ⟨r.toNat, hlt⟩).index := by
        rw [List.getD_eq_getElem?_getD, List.getElem?_map, ← List.get?_eq_getElem?, hc]
        rfl
      refine ⟨res.clusters.get ⟨r.toNat, hlt⟩,
        res.labels.map (fun row => row.map (fun l =>
          decide (l = (res.clusters.get ⟨r.toNat, hlt⟩).index))), hc, ?_, ?_⟩
      · rw [hbranch res r]
        unfold _mask_from_cluster
        rw [if_neg hnot]
        simp only [htarget]
      · intro i j
        rw [List.get?_map]
        cases hrow : res.labels.get? i with
        | none => rfl
        | some row =>
          show ((row.map (fun l =>
              decide (l = (res.clusters.get ⟨r.toNat, hlt⟩).index))).get? j) =
            Option.map (fun l =>
              decide (l = (res.clusters.get ⟨r.toNat, hlt⟩).index)) (row.get? j)
          rw [List.get?_map]
    · intro hout
      rw [hbranch res r]
      unfold _mask_from_cluster
      rw [if_pos (by rw [List.length_map]; exact hout)]
  · rfl

/-- C1 (witness): `cluster_mask_spec` applied to the 2×2 example at
rank index 0 (whose original cluster id is 0). -/
theorem cluster_mask_spec_witness :
    (0 ≤ (0 : ℤ) ∧ (0 : ℤ) < (res2x2.clusters.length : ℤ)) ∧
    ∃ c m, res2x2.clusters.get? (0 : ℤ).toNat = some c ∧
      generate_mask res2x2 "cluster" none none DEFAULT_HUE_TOLERANCE (some 0) none
        none DEFAULT_GROUND_TOLERANCE = .ok m ∧
      ∀ i j, (m.get? i).bind (fun row => row.get? j) =
        ((res2x2.labels.get? i).bind (fun row => row.get? j)).map
          (fun l => decide (l = c.index)) := by
  have h : 0 ≤ (0 : ℤ) ∧ (0 : ℤ) < (res2x2.clusters.length : ℤ) := by
    refine ⟨le_refl _, ?_⟩
    show (0 : ℤ) < (res2x2.clusters.length : ℤ)
    norm_num [res2x2]
  exact ⟨h, (cluster_mask_spec.1 res2x2 0).1 h⟩

/-- Characterization of the `detect_ground_cluster` loop: folding
`dg_step` over `enumFrom n l` either leaves the accumulator untouched
(no cluster is eligible with a pixel count beating the threshold `m`),
or lands on the first eligible cluster of maximal pixel count among
those beating `m`. -/
theorem dg_foldl_char (l : List ClusterInfo) (n : Nat) (o : Option Nat) (m : ℤ) :
    ((List.enumFrom n l).foldl dg_step (o, m) = (o, m) ∧
      ∀ c ∈ l, ¬((GROUND_VALUE_RANGE.1 ≤ c.center_lch.1 ∧
          c.center_lch.1 ≤ GROUND_VALUE_RANGE.2 ∧
          c.center_lch.2.1 < GROUND_CHROMA_MAX) ∧ m < (c.pixel_count : ℤ))) ∨
    (∃ j c, l.get? j = some c ∧
      (GROUND_VALUE_RANGE.1 ≤ c.center_lch.1 ∧ c.center_lch.1 ≤ GROUND_VALUE_RANGE.2 ∧
        c.center_lch.2.1 < GROUND_CHROMA_MAX) ∧ m < (c.pixel_count : ℤ) ∧
      (List.enumFrom n l).foldl dg_step (o, m) = (some (n + j), (c.pixel_count : ℤ)) ∧
      ∀ j2 c2, l.get? j2 = some c2 →
        (GROUND_VALUE_RANGE.1 ≤ c2.center_lch.1 ∧
          c2.center_lch.1 ≤ GROUND_VALUE_RANGE.2 ∧
          c2.center_lch.2.1 < GROUND_CHROMA_MAX) →
        m < (c2.pixel_count : ℤ) → (c2.pixel_count : ℤ) ≤ (c.pixel_count : ℤ)) := by
  induction l generalizing n o m with
  | nil => exact Or.inl ⟨rfl, by simp⟩
  | cons c rest ih =>
    simp only [List.enumFrom, List.foldl_cons]
    by_cases hc : (GROUND_VALUE_RANGE.1 ≤ c.center_lch.1 ∧
        c.center_lch.1 ≤ GROUND_VALUE_RANGE.2 ∧
        c.center_lch.2.1 < GROUND_CHROMA_MAX) ∧ m < (c.pixel_count : ℤ)
    · have hstep : dg_step (o, m) (n, c) = (some n, (c.pixel_count : ℤ)) := by
        simp only [dg_step]
        rw [if_pos hc]
      rw [hstep]
      rcases ih (n + 1) (some n) (c.pixel_count : ℤ) with
        ⟨hres, hno⟩ | ⟨j, c2, hget, helig, hm, hres, hmax⟩
      · refine Or.inr ⟨0, c, rfl, hc.1, hc.2, ?_, ?_⟩
        · rw [hres, Nat.add_zero]
        · intro j2 d hget2 helig2 hm2
          cases j2 with
          | zero =>
            cases hget2
            exact le_refl _
          | succ j2' =>
            have hd : d ∈ rest := List.get?_mem hget2
            have := hno d hd
            push_neg at this
            exact this helig2
      · refine Or.inr ⟨j + 1, c2, hget, helig, lt_trans hc.2 hm, ?_, ?_⟩
        · rw [hres]
          congr 2
          omega
        · intro j2 d hget2 helig2 hm2
          cases j2 with
          | zero =>
            cases hget2
            exact le_of_lt hm
          | succ j2' =>
            by_cases hdc : (c.pixel_count : ℤ) < (d.pixel_count : ℤ)
            · exact hmax j2' d hget2 helig2 hdc
            · exact le_trans (not_lt.mp hdc) (le_of_lt hm)
    · have hstep : dg_step (o, m) (n, c) = (o, m) := by
        simp only [dg_step]
        rw [if_neg hc]
      rw [hstep]
      rcases ih (n + 1) o m with
        ⟨hres, hno⟩ | ⟨j, c2, hget, helig, hm, hres, hmax⟩
      · refine Or.inl ⟨hres, ?_⟩
        intro d hd
        rcases List.mem_cons.mp hd with rfl | hd'
        · exact hc
        · exact hno d hd'
      · refine Or.inr ⟨j + 1, c2, hget, helig, hm, ?_, ?_⟩
        · rw [hres]
          congr 2
          omega
        · intro j2 d hget2 helig2 hm2
          cases j2 with
          | zero =>
            cases hget2
            exact absurd ⟨helig2, hm2⟩ hc
          | succ j2' => exact hmax j2' d hget2 helig2 hm2

/-- C6: `detect_ground_cluster` returns none exactly when no cluster has
LCh lightness in `[35, 65]` together with chroma strictly below 8; when
it returns a rank index, that rank's cluster is eligible and its pixel
count is greatest among all eligible clusters. -/
theorem detect_ground_cluster_spec (result : AnalysisResult) :
    (detect_ground_cluster result = none ↔
      ∀ c ∈ result.clusters, ¬((35 : ℚ) ≤ c.center_lch.1 ∧ c.center_lch.1 ≤ 65 ∧
        c.center_lch.2.1 < 8)) ∧
    ∀ r, detect_ground_cluster result = some r →
      ∃ c, result.clusters.get? r = some c ∧
        ((35 : ℚ) ≤ c.center_lch.1 ∧ c.center_lch.1 ≤ 65 ∧ c.center_lch.2.1 < 8) ∧
        ∀ c2 ∈ result.clusters,
          ((35 : ℚ) ≤ c2.center_lch.1 ∧ c2.center_lch.1 ≤ 65 ∧
            c2.center_lch.2.1 < 8) →
          c2.pixel_count ≤ c.pixel_count := by
  rcases dg_foldl_char result.clusters 0 none (-1) with
    ⟨hres, hno⟩ | ⟨j, c, hget, helig, hm, hres, hmax⟩
  · have hdet : detect_ground_cluster result = none := by
      unfold detect_ground_cluster List.enum
      rw [hres]
    constructor
    · constructor
      · intro _ c hc helig
        exact hno c hc ⟨helig, by omega⟩
      · intro _
        exact hdet
    · intro r hr
      rw [hdet] at hr
      cases hr
  · have hdet : detect_ground_cluster result = some j := by
      unfold detect_ground_cluster List.enum
      rw [hres]
      simp
    constructor
    · constructor
      · intro h0
        rw [hdet] at h0
        cases h0
      · intro hnone
        exact absurd helig (hnone c (List.get?_mem hget))
    · intro r hr
      rw [hdet] at hr
      injection hr with hrj
      subst hrj
      refine ⟨c, hget, helig, ?_⟩
      intro c2 hc2 helig2
      obtain ⟨j2, hj2⟩ := List.get?_of_mem hc2
      have := hmax j2 c2 hj2 helig2 (by omega)
      exact_mod_cast this

/-- C6 (witness): `detect_ground_cluster_spec` applied to `res_dg`,
whose rank-1 cluster is the only eligible one. -/
theorem detect_ground_cluster_spec_witness :
    detect_ground_cluster res_dg = some 1 ∧
    ∃ c, res_dg.clusters.get? 1 = some c ∧
      ((35 : ℚ) ≤ c.center_lch.1 ∧ c.center_lch.1 ≤ 65 ∧ c.center_lch.2.1 < 8) ∧
      ∀ c2 ∈ res_dg.clusters,
        ((35 : ℚ) ≤ c2.center_lch.1 ∧ c2.center_lch.1 ≤ 65 ∧
          c2.center_lch.2.1 < 8) →
        c2.pixel_count ≤ c.pixel_count := by
  have hdet : detect_ground_cluster res_dg = some 1 := by
    unfold detect_ground_cluster res_dg
    norm_num [dg_step, List.enum, List.enumFrom, List.foldl,
      GROUND_VALUE_RANGE, GROUND_CHROMA_MAX]
  exact ⟨hdet, (detect_ground_cluster_spec res_dg).2 1 hdet⟩

/-- Evaluating `mergeSort` on a two-element list: is a single comparison. -/
theorem mergeSort_pair {α : Type} (le : α → α → Bool) (a b : α) :
    [a, b].mergeSort le = if le a b then [a, b] else [b, a] := by
  rw [List.mergeSort]
  simp only [List.splitInTwo_fst, List.splitInTwo_snd, List.length_cons,
    List.length_nil, Nat.reduceAdd, Nat.reduceDiv, List.take_succ_cons,
    List.take_zero, List.drop_succ_cons, List.drop_zero,
    List.mergeSort_singleton]
  rw [List.cons_merge_cons]
  by_cases h : le a b
  · simp [h]
  · simp [h]

/-- C5 (counterexample): for labels `[0,1,1,1]` with k = 2, sorting puts
original cluster 1 (3 pixels) at rank 0, and `serialize_clusters`
exposes `index = 1` for the rank-0 cluster — not the rank index 0 the
claim requires. -/
theorem serialize_clusters_cex :
    ((serialize_clusters (rank_clusters [0, 1, 1, 1]
        [(10, 0, 0), (70, 0, 0)] [(11, 0, 0), (71, 0, 0)] 2)).map
      (fun t => t.1)).get? 0 = some 1 ∧ (1 : Nat) ≠ 0 := by
  have hrange : List.range 2 = [0, 1] := by decide
  have h1 : rank_clusters [0, 1, 1, 1] [(10, 0, 0), (70, 0, 0)]
      [(11, 0, 0), (71, 0, 0)] 2 =
      [ClusterInfo.mk 1 (70, 0, 0) (71, 0, 0) 3,
       ClusterInfo.mk 0 (10, 0, 0) (11, 0, 0) 1] := by
    unfold rank_clusters
    rw [hrange]
    simp only [List.map_cons, List.map_nil]
    rw [mergeSort_pair]
    norm_num [List.getD_cons_zero, List.getD_cons_succ,
      List.count_cons, List.count_nil]
  rw [h1]
  exact ⟨rfl, by decide⟩

/-- C5 (amended): the cluster list is sorted by pixel count descending
and the rank index is the *position* in that list; each record's `index`
field holds the original unranked k-means id (the index fields form a
permutation of `0..k-1`), and `serialize_clusters` exposes that original
unranked id positionally — not the rank index. -/
theorem rank_clusters_spec (labels : List Nat)
    (centers_lab centers_lch : List (ℚ × ℚ × ℚ)) (k : Nat) :
    (rank_clusters labels centers_lab centers_lch k).Pairwise
      (fun a b => b.pixel_count ≤ a.pixel_count) ∧
    ((rank_clusters labels centers_lab centers_lch k).map (fun c => c.index)).Perm
      (List.range k) ∧
    (serialize_clusters (rank_clusters labels centers_lab centers_lch k)).map
      (fun t => t.1) =
      (rank_clusters labels centers_lab centers_lch k).map (fun c => c.index) ∧
    (serialize_clusters (rank_clusters labels centers_lab centers_lch k)).length =
      (rank_clusters labels centers_lab centers_lch k).length := by
  refine ⟨?_, ?_, ?_, ?_⟩
  · unfold rank_clusters
    refine List.Pairwise.imp ?_ (List.sorted_mergeSort ?_ ?_ _)
    · intro a b h
      exact of_decide_eq_true h
    · intro a b c hab hbc
      simp only [decide_eq_true_eq] at hab hbc ⊢
      omega
    · intro a b
      simp only [Bool.or_eq_true, decide_eq_true_eq]
      omega
  · unfold rank_clusters
    have hp := List.mergeSort_perm ((List.range k).map (fun i =>
      ClusterInfo.mk i (centers_lab.getD i (0, 0, 0)) (centers_lch.getD i (0, 0, 0))
        (labels.count i))) (fun a b => decide (b.pixel_count ≤ a.pixel_count))
    have hmap := hp.map (fun c => c.index)
    rw [List.map_map] at hmap
    have hcomp : ((fun c : ClusterInfo => c.index) ∘ (fun i =>
        ClusterInfo.mk i (centers_lab.getD i (0, 0, 0)) (centers_lch.getD i (0, 0, 0))
          (labels.count i))) = fun i => i := by
      funext i
      rfl
    rw [hcomp, List.map_id'] at hmap
    exact hmap
  · simp only [serialize_clusters, List.map_map]
    rfl
  · simp [serialize_clusters]

/-- Sums of pointwise sums of naturals split. -/
theorem sum_map_nat_add (l : List Nat) (f g : Nat → Nat) :
    (l.map (fun i => f i + g i)).sum = (l.map f).sum + (l.map g).sum := by
  induction l with
  | nil => rfl
  | cons x xs ih =>
    simp only [List.map_cons, List.sum_cons, ih]
    omega

/-- Summing an indicator of a fixed in-range index over `range n` gives 1. -/
theorem sum_map_indicator (n j : Nat) (hj : j < n) :
    ((List.range n).map (fun i => if j = i then 1 else 0)).sum = 1 := by
  induction n with
  | zero => omega
  | succ n ih =>
    rw [List.range_succ, List.map_append, List.sum_append]
    by_cases h : j < n
    · rw [ih h]
      simp [Nat.ne_of_lt h]
    · have hjn : j = n := by omega
      subst hjn
      have hz : ((List.range j).map (fun i => if j = i then 1 else 0)).sum = 0 := by
        apply List.sum_eq_zero
        intro x hx
        simp only [List.mem_map] at hx
        obtain ⟨i, hi, rfl⟩ := hx
        have hij : i < j := List.mem_range.mp hi
        simp [Nat.ne_of_gt hij]
      simp [hz]

/-- The bucket counts of `np_histogram` add up to the number of in-range
samples. -/
theorem np_histogram_sum (xs : List ℚ) (n : Nat) (lo hi : ℚ) (hn : 0 < n) :
    (np_histogram xs n lo hi).sum =
      xs.countP (fun x => decide (lo ≤ x ∧ x ≤ hi)) := by
  induction xs with
  | nil => simp [np_histogram]
  | cons x xs ih =>
    unfold np_histogram at ih ⊢
    simp only [List.countP_cons]
    rw [sum_map_nat_add, ih]
    congr 1
    by_cases hin : lo ≤ x ∧ x ≤ hi
    · have hidx : hist_index lo hi n x < n := by
        have h1 : min (⌊(x - lo) * n / (hi - lo)⌋.toNat) (n - 1) ≤ n - 1 :=
          min_le_right _ _
        unfold hist_index
        omega
      rw [if_pos (decide_eq_true hin)]
      have hpt : ∀ i : Nat,
          (if decide (lo ≤ x ∧ x ≤ hi ∧ hist_index lo hi n x = i) then 1 else 0) =
            (if hist_index lo hi n x = i then 1 else 0) := by
        intro i
        by_cases h : hist_index lo hi n x = i
        · rw [if_pos (decide_eq_true ⟨hin.1, hin.2, h⟩), if_pos h]
        · rw [if_neg (fun hc => h (of_decide_eq_true hc).2.2), if_neg h]
      simp only [hpt]
      exact sum_map_indicator n _ hidx
    · rw [if_neg (fun hc => hin (of_decide_eq_true hc))]
      apply List.sum_eq_zero
      intro y hy
      simp only [List.mem_map] at hy
      obtain ⟨i, _, rfl⟩ := hy
      rw [if_neg (fun hc => hin
        ⟨(of_decide_eq_true hc).1, (of_decide_eq_true hc).2.1⟩)]

/-- When every label is below `k`, the per-cluster `bincount`s add up to
the number of labels. -/
theorem sum_count_range (labels : List Nat) (k : Nat)
    (h : ∀ l ∈ labels, l < k) :
    ((List.range k).map (fun i => labels.count i)).sum = labels.length := by
  induction labels with
  | nil => simp
  | cons x xs ih =>
    have hx : x < k := h x (List.mem_cons_self x xs)
    have hxs : ∀ l ∈ xs, l < k := fun l hl => h l (List.mem_cons_of_mem x hl)
    simp only [List.count_cons]
    rw [sum_map_nat_add, ih hxs]
    have hbool : ∀ i : Nat, (if x == i then 1 else 0) = (if x = i then 1 else 0) := by
      intro i
      by_cases h' : x = i <;> simp [h']
    simp only [hbool]
    rw [sum_map_indicator k x hx]
    simp

/-- A rectangular list of rows flattens to `rows · W` entries. -/
theorem flatten_length_rect {α : Type} (L : List (List α)) (W : Nat)
    (h : ∀ row ∈ L, row.length = W) : L.flatten.length = L.length * W := by
  induction L with
  | nil => simp
  | cons r rs ih =>
    rw [List.flatten_cons, List.length_append,
      ih (fun row hr => h row (List.mem_cons_of_mem r hr)),
      h r (List.mem_cons_self r rs), List.length_cons]
    ring

/-- The ranked cluster list is sorted by descending pixel count. -/
theorem rank_clusters_sorted (labels : List Nat)
    (centers_lab centers_lch : List (ℚ × ℚ × ℚ)) (k : Nat) :
    (rank_clusters labels centers_lab centers_lch k).Pairwise
      (fun a b => b.pixel_count ≤ a.pixel_count) := by
  unfold rank_clusters
  refine List.Pairwise.imp ?_ (List.sorted_mergeSort ?_ ?_ _)
  · intro a b h
    exact of_decide_eq_true h
  · intro a b c hab hbc
    simp only [decide_eq_true_eq] at hab hbc ⊢
    omega
  · intro a b
    simp only [Bool.or_eq_true, decide_eq_true_eq]
    omega

/-- C8: for a rectangular H×W analysis image, the 256 value-histogram
counts sum to H·W, the 360 hue-histogram counts sum to H·W (every hue
produced by `lab_to_lch` lies in `[0, 360)`), the ranked clusters' pixel
counts sum to H·W, and those counts are non-increasing in rank index. -/
theorem analysis_invariants (L2 H2 : List (List ℚ)) (labels : List Nat)
    (centers_lab centers_lch : List (ℚ × ℚ × ℚ)) (k W : Nat)
    (hL : ∀ row ∈ L2, row.length = W)
    (hH : ∀ row ∈ H2, row.length = W)
    (hHrange : ∀ x ∈ H2.flatten, 0 ≤ x ∧ x < 360)
    (hlab : ∀ l ∈ labels, l < k)
    (hlen : labels.length = L2.length * W)
    (hHL : H2.length = L2.length) :
    (compute_value_histogram L2.flatten 256).sum = L2.length * W ∧
    (compute_hue_histogram H2.flatten 360).sum = L2.length * W ∧
    ((rank_clusters labels centers_lab centers_lch k).map
      (fun c => c.pixel_count)).sum = L2.length * W ∧
    (rank_clusters labels centers_lab centers_lch k).Pairwise
      (fun a b => b.pixel_count ≤ a.pixel_count) := by
  refine ⟨?_, ?_, ?_, rank_clusters_sorted labels centers_lab centers_lch k⟩
  · unfold compute_value_histogram
    rw [np_histogram_sum _ _ _ _ (by norm_num : (0 : Nat) < 256)]
    have hall : ∀ y ∈ L2.flatten.map (fun x => qclip x 0 100),
        (fun x => decide ((0 : ℚ) ≤ x ∧ x ≤ 100)) y = true := by
      intro y hy
      simp only [List.mem_map] at hy
      obtain ⟨x, _, rfl⟩ := hy
      apply decide_eq_true
      exact ⟨le_min (le_max_right x 0) (by norm_num), min_le_right _ _⟩
    rw [List.countP_eq_length.mpr hall, List.length_map,
      flatten_length_rect L2 W hL]
  · unfold compute_hue_histogram
    rw [np_histogram_sum _ _ _ _ (by norm_num : (0 : Nat) < 360)]
    have hall : ∀ y ∈ H2.flatten,
        (fun x => decide ((0 : ℚ) ≤ x ∧ x ≤ 360)) y = true := by
      intro y hy
      apply decide_eq_true
      exact ⟨(hHrange y hy).1, le_of_lt (hHrange y hy).2⟩
    rw [List.countP_eq_length.mpr hall, flatten_length_rect H2 W hH, hHL]
  · unfold rank_clusters
    have hperm := (List.mergeSort_perm ((List.range k).map (fun i =>
      ClusterInfo.mk i (centers_lab.getD i (0, 0, 0)) (centers_lch.getD i (0, 0, 0))
        (labels.count i))) (fun a b =>
          decide (b.pixel_count ≤ a.pixel_count))).map (fun c => c.pixel_count)
    rw [hperm.sum_eq, List.map_map]
    have hcomp : ((fun c : ClusterInfo => c.pixel_count) ∘ (fun i =>
        ClusterInfo.mk i (centers_lab.getD i (0, 0, 0)) (centers_lch.getD i (0, 0, 0))
          (labels.count i))) = fun i => labels.count i := by
      funext i
      rfl
    rw [hcomp, sum_count_range labels k hlab]
    exact hlen

/-- C8 (witness): `analysis_invariants` on a concrete 2×2 image with
labels `[0,1,1,0]` and k = 2. -/
theorem analysis_invariants_witness :
    (compute_value_histogram ([[0, 50], [100, 200]] : List (List ℚ)).flatten
      256).sum = 2 * 2 ∧
    (compute_hue_histogram ([[0, 359], [10, 20]] : List (List ℚ)).flatten
      360).sum = 2 * 2 ∧
    ((rank_clusters [0, 1, 1, 0] [(50, 0, 0), (60, 0, 0)]
      [(50, 5, 0), (60, 5, 0)] 2).map (fun c => c.pixel_count)).sum = 2 * 2 ∧
    (rank_clusters [0, 1, 1, 0] [(50, 0, 0), (60, 0, 0)]
      [(50, 5, 0), (60, 5, 0)] 2).Pairwise
      (fun a b => b.pixel_count ≤ a.pixel_count) := by
  have h := analysis_invariants [[0, 50], [100, 200]] [[0, 359], [10, 20]]
    [0, 1, 1, 0] [(50, 0, 0), (60, 0, 0)] [(50, 5, 0), (60, 5, 0)] 2 2
    (by intro row hr; fin_cases hr <;> rfl)
    (by intro row hr; fin_cases hr <;> rfl)
    (by
      intro x hx
      simp only [List.flatten_cons, List.flatten_nil, List.append_nil,
        List.mem_append, List.mem_cons, List.mem_singleton,
        List.not_mem_nil, or_false] at hx
      rcases hx with (rfl | rfl) | (rfl | rfl) <;> norm_num)
    (by decide)
    (by decide)
    (by decide)
  simpa using h

/-- The first components of `enumFrom n l` are `n, n+1, ...`. -/
theorem enumFrom_map_fst {α : Type} (n : Nat) (l : List α) :
    (l.enumFrom n).map Prod.fst = List.range' n l.length := by
  induction l generalizing n with
  | nil => rfl
  | cons x xs ih =>
    simp only [List.enumFrom_cons, List.map_cons, List.length_cons,
      List.range'_succ]
    rw [ih]

/-- C9: `match_palette` returns `min topN (palette length)` entries,
sorted non-decreasing by the lightness-weighted distance
`sqrt((1.5·dL)² + da² + db²)` (stored squared as `delta_e_sq`; the
square root is monotone), with distance ties kept in original palette
order, and every returned entry is a palette entry annotated with its
own distance. -/
theorem match_palette_spec (palette : List PaletteEntryM)
    (lab_color : ℚ × ℚ × ℚ) (top_n : Nat) :
    (match_palette palette lab_color top_n).length = min top_n palette.length ∧
    (match_palette palette lab_color top_n).Pairwise
      (fun x y => Real.sqrt ((x.2.2 : ℝ)) ≤ Real.sqrt ((y.2.2 : ℝ))) ∧
    (match_palette palette lab_color top_n).Pairwise
      (fun x y => x.2.2 < y.2.2 ∨ (x.2.2 = y.2.2 ∧ x.1 < y.1)) ∧
    ∀ x ∈ match_palette palette lab_color top_n,
      palette.get? x.1 = some x.2.1 ∧
      x.2.2 = delta_e_sq lab_color x.2.1.lab := by
  have hnodup_cand : ((palette.enum.map (fun p =>
      (p.1, p.2, delta_e_sq lab_color p.2.lab))).map (fun x => x.1)).Nodup := by
    rw [List.map_map]
    have hcomp : ((fun x : Nat × PaletteEntryM × ℚ => x.1) ∘ (fun p : Nat × PaletteEntryM =>
        (p.1, p.2, delta_e_sq lab_color p.2.lab))) = Prod.fst := by
      funext p
      rfl
    rw [hcomp]
    show (List.map Prod.fst (palette.enumFrom 0)).Nodup
    rw [enumFrom_map_fst]
    exact List.nodup_range' _ _
  have hnodup_sorted : (((palette.enum.map (fun p =>
      (p.1, p.2, delta_e_sq lab_color p.2.lab))).mergeSort (fun a b =>
        decide (a.2.2 < b.2.2 ∨ (a.2.2 = b.2.2 ∧ a.1 ≤ b.1)))).map
      (fun x => x.1)).Nodup := by
    have hp := (List.mergeSort_perm (palette.enum.map (fun p =>
      (p.1, p.2, delta_e_sq lab_color p.2.lab))) (fun a b =>
        decide (a.2.2 < b.2.2 ∨ (a.2.2 = b.2.2 ∧ a.1 ≤ b.1)))).map
      (fun x => x.1)
    exact hp.nodup_iff.mpr hnodup_cand
  have hne := List.pairwise_map.mp hnodup_sorted
  have hstrict : ((palette.enum.map (fun p =>
      (p.1, p.2, delta_e_sq lab_color p.2.lab))).mergeSort (fun a b =>
        decide (a.2.2 < b.2.2 ∨ (a.2.2 = b.2.2 ∧ a.1 ≤ b.1)))).Pairwise
      (fun x y => x.2.2 < y.2.2 ∨ (x.2.2 = y.2.2 ∧ x.1 < y.1)) := by
    refine List.Pairwise.imp ?_ ((List.sorted_mergeSort ?_ ?_ _).and hne)
    · intro a b hab
      rcases of_decide_eq_true hab.1 with hlt | ⟨heq, hle⟩
      · exact Or.inl hlt
      · exact Or.inr ⟨heq, lt_of_le_of_ne hle hab.2⟩
    · intro a b c hab hbc
      simp only [decide_eq_true_eq] at hab hbc ⊢
      rcases hab with h1 | ⟨he1, hi1⟩ <;> rcases hbc with h2 | ⟨he2, hi2⟩
      · exact Or.inl (lt_trans h1 h2)
      · exact Or.inl (he2 ▸ h1)
      · exact Or.inl (he1 ▸ h2)
      · exact Or.inr ⟨he1.trans he2, le_trans hi1 hi2⟩
    · intro a b
      simp only [Bool.or_eq_true, decide_eq_true_eq]
      rcases lt_trichotomy a.2.2 b.2.2 with h | h | h
      · exact Or.inl (Or.inl h)
      · rcases Nat.le_total a.1 b.1 with hi | hi
        · exact Or.inl (Or.inr ⟨h, hi⟩)
        · exact Or.inr (Or.inr ⟨h.symm, hi⟩)
      · exact Or.inr (Or.inl h)
  have htake : (match_palette palette lab_color top_n).Pairwise
      (fun x y => x.2.2 < y.2.2 ∨ (x.2.2 = y.2.2 ∧ x.1 < y.1)) :=
    List.Pairwise.sublist (List.take_sublist _ _) hstrict
  refine ⟨?_, ?_, htake, ?_⟩
  · show (List.take top_n _).length = _
    rw [List.length_take, List.length_mergeSort, List.length_map,
      List.enum_length]
  · refine htake.imp ?_
    intro a b h
    rcases h with h | ⟨h, _⟩
    · exact Real.sqrt_le_sqrt (by exact_mod_cast le_of_lt h)
    · exact le_of_eq (by rw [h])
  · intro x hx
    have hx1 : x ∈ (palette.enum.map (fun p =>
        (p.1, p.2, delta_e_sq lab_color p.2.lab))).mergeSort (fun a b =>
          decide (a.2.2 < b.2.2 ∨ (a.2.2 = b.2.2 ∧ a.1 ≤ b.1))) :=
      List.take_subset _ _ hx
    have hx2 := List.mem_mergeSort.mp hx1
    simp only [List.mem_map] at hx2
    obtain ⟨p, hp, rfl⟩ := hx2
    exact ⟨List.mem_enum_iff_get?.mp hp, rfl⟩

/-- C9 (witness): `match_palette_spec` on the two-entry palette `pal2`
with `topN = 3`: both entries come back, each with its own distance. -/
theorem match_palette_spec_witness :
    (match_palette pal2 (50, 0, 0) 3).length = min 3 pal2.length ∧
    ∀ x ∈ match_palette pal2 (50, 0, 0) 3,
      pal2.get? x.1 = some x.2.1 ∧ x.2.2 = delta_e_sq (50, 0, 0) x.2.1.lab := by
  have h := match_palette_spec pal2 (50, 0, 0) 3
  exact ⟨h.1, h.2.2.2⟩

/-- C5 (witness): `rank_clusters_spec` instantiated at the concrete
labels `[0,1,1,1]` with k = 2: the serialized id sequence equals the
records' own unranked index fields. -/
theorem rank_clusters_spec_witness :
    (serialize_clusters (rank_clusters [0, 1, 1, 1] [(10, 0, 0), (70, 0, 0)]
      [(11, 0, 0), (71, 0, 0)] 2)).map (fun t => t.1) =
    (rank_clusters [0, 1, 1, 1] [(10, 0, 0), (70, 0, 0)]
      [(11, 0, 0), (71, 0, 0)] 2).map (fun c => c.index) :=
  (rank_clusters_spec [0, 1, 1, 1] [(10, 0, 0), (70, 0, 0)]
    [(11, 0, 0), (71, 0, 0)] 2).2.2.1
